import Mathlib

/-!
Shallow embedding of the state-synchronization core of flipt-react-native
(src/src/useFliptClient.tsx and src/src/wrapper.ts), with theorems checking
the natural-language specification against the code.

The embedding models:
- the polling tick callback installed by setupPolling (useFliptClient.tsx
  lines 75-93) as a transition function on an explicit store state, with the
  outcomes of the external refresh and getSnapshotHash calls supplied as an
  environment;
- detach (lines 43-47) and setupPolling's interval computation (lines 64-74);
- the FliptClient constructor's option mapping (wrapper.ts lines 81-107),
  where JavaScript truthiness tests are modelled explicitly (an empty string
  and the number 0 are falsy);
- the notify pass over the listener Set (lines 54-56) following the
  ECMAScript semantics of Set.prototype.forEach: live iteration over the
  entry list, deleted entries are cleared in place, added entries are
  appended and visited;
- the initializeClient failure path (lines 114-159) and the useFliptBoolean
  selector (lines 218-240).
-/

namespace Flipt

/-- Outcome of a call to the Evaluation Handle's refresh(previousHash):
either it returns a boolean, or it throws. -/
inductive RefreshOutcome where
  | ok (changed : Bool)
  | err
  deriving DecidableEq, Repr

/-- Outcome of a call to getSnapshotHash(): either it returns a hash string,
or it throws. -/
inductive HashOutcome where
  | ok (h : String)
  | err
  deriving DecidableEq, Repr

/-- Environment of one poll tick: what the two external calls would return
if made on this tick. -/
structure TickEnv where
  refresh : RefreshOutcome
  hash : HashOutcome
  deriving DecidableEq, Repr

/-- Mutable state owned by the useStore hook: presence of the client handle
(store.client), isLoading, error, the mounted flag (mountedRef), whether a
poll timer is installed (intervalIdRef), and the last snapshot hash
(lastHashRef). -/
structure StoreState where
  client : Bool
  isLoading : Bool
  error : Option String
  mounted : Bool
  intervalId : Bool
  lastHash : Option String
  deriving DecidableEq, Repr

/-- Observable events of one poll tick: whether refresh was called, whether
listeners were notified, and the hash value written to lastHashRef (if the
assignment on line 82 executed). -/
structure TickTrace where
  refreshCalled : Bool
  notified : Bool
  hashWritten : Option String
  deriving DecidableEq, Repr

/-- The empty trace: the tick callback did nothing observable. -/
def TickTrace.none : TickTrace := ⟨false, false, Option.none⟩

/-- The body of the setInterval callback (useFliptClient.tsx lines 76-92):
if the client exists and the store is mounted, call refresh(lastHash);
if it returns true, try to read the new hash (storing it on success) and
notify either way; if it returns false do nothing; if it throws, clear
lastHash and do not notify. -/
def tickBody (s : StoreState) (e : TickEnv) : StoreState × TickTrace :=
  if s.client = true ∧ s.mounted = true then
    match e.refresh with
    | .err => ({ s with lastHash := none }, ⟨true, false, none⟩)
    | .ok false => (s, ⟨true, false, none⟩)
    | .ok true =>
      match e.hash with
      | .ok h => ({ s with lastHash := some h }, ⟨true, true, some h⟩)
      | .err => (s, ⟨true, true, none⟩)
  else (s, TickTrace.none)

/-- One elapsed timer interval: the callback runs only while a timer is
installed (after clearInterval the callback never fires). -/
def elapse (s : StoreState) (e : TickEnv) : StoreState × TickTrace :=
  if s.intervalId = true then tickBody s e else (s, TickTrace.none)

/-- Run a sequence of poll ticks, returning the final state. -/
def runTicks (s : StoreState) : List TickEnv → StoreState
  | [] => s
  | e :: es => runTicks (tickBody s e).1 es

/-- Run a sequence of elapsed timer intervals, collecting the trace of each. -/
def runElapse (s : StoreState) : List TickEnv → StoreState × List TickTrace
  | [] => (s, [])
  | e :: es =>
    let r := elapse s e
    let rest := runElapse r.1 es
    (rest.1, r.2 :: rest.2)

/-- The detach operation (useFliptClient.tsx lines 43-47): clear the mounted
flag, cancel the pending timer with clearInterval, and release the timer
handle. -/
def detach (s : StoreState) : StoreState :=
  { s with mounted := false, intervalId := false }

/-- The poll interval in milliseconds computed by setupPolling
(useFliptClient.tsx lines 66-68): the configured updateInterval if defined,
otherwise 10, times 1000. -/
def pollIntervalMs (updateInterval : Option Int) : Int :=
  (match updateInterval with
   | some n => n
   | none => 10) * 1000

/-- The setupPolling guard and effect (useFliptClient.tsx lines 69-94): a
timer is installed only when the computed interval is positive, the store is
mounted, a client exists, and no timer is already installed. -/
def setupPolling (updateInterval : Option Int) (s : StoreState) : StoreState :=
  if pollIntervalMs updateInterval > 0 ∧ s.mounted = true ∧ s.client = true
      ∧ s.intervalId = false then
    { s with intervalId := true }
  else s

/-- Documented default of the updateInterval configuration option
(wrapper.ts line 28: defaultValue 120 seconds). -/
def documentedUpdateIntervalDefault : Int := 120

/-- JavaScript truthiness of a number-or-undefined value: undefined and 0
are falsy, every other integer is truthy. -/
def intTruthy : Option Int → Bool
  | some n => n ≠ 0
  | none => false

/-- The updateInterval passed to the underlying UniFFI client by the
FliptClient constructor (wrapper.ts lines 98-100): options.updateInterval
when truthy, otherwise 120. -/
def uniffiUpdateInterval (updateInterval : Option Int) : Int :=
  if intTruthy updateInterval then updateInterval.getD 0 else 120

/-- Tagged union of authentication values accepted by the underlying client
(wrapper.ts, generated Authentication type). -/
inductive Authentication where
  | clientToken (t : String)
  | jwtToken (t : String)
  deriving DecidableEq, Repr

/-- The optional authentication record of ClientOptions (wrapper.ts lines
34-37): both fields optional. -/
structure AuthOptions where
  client_token : Option String
  jwt_token : Option String
  deriving DecidableEq, Repr

/-- JavaScript truthiness of a string-or-undefined value: undefined and the
empty string are falsy. -/
def strTruthy : Option String → Bool
  | some s => s ≠ ""
  | none => false

/-- Authentication selection in the FliptClient constructor (wrapper.ts
lines 83-92): if options.authentication?.client_token is truthy build a
ClientToken, else if options.authentication?.jwt_token is truthy build a
JwtToken, else leave authentication undefined. -/
def selectAuthentication (a : Option AuthOptions) : Option Authentication :=
  match a with
  | none => none
  | some o =>
    if strTruthy o.client_token then some (.clientToken (o.client_token.getD ""))
    else if strTruthy o.jwt_token then some (.jwtToken (o.jwt_token.getD ""))
    else none

/-- Action a listener performs on the listener set when invoked: nothing,
delete a listener (an unsubscribe function, lines 35-37), or add one
(a subscribe call, line 34). Listeners are identified by numbers. -/
inductive ListenerAction where
  | noop
  | remove (x : Nat)
  | add (x : Nat)
  deriving DecidableEq, Repr

/-- Apply a listener's action to the entry list of the JavaScript Set.
Following the ECMAScript Set semantics: delete clears the entry in place
(so iteration positions of other entries are unaffected), add appends a new
entry only if the value is not already in the set. -/
def applyAction (a : ListenerAction) (entries : List (Option Nat)) :
    List (Option Nat) :=
  match a with
  | .noop => entries
  | .remove x => entries.map (fun e => if e = some x then none else e)
  | .add x => if some x ∈ entries then entries else entries ++ [some x]

/-- Live iteration of Set.prototype.forEach starting at position i
(useFliptClient.tsx line 55: listeners.forEach((l) => l())): visit each
non-cleared entry in order, applying the visited listener's action to the
live entry list before moving on; entries appended during the pass are
visited too. Returns the list of listeners notified, in order. Fuel bounds
the recursion (listeners that keep adding listeners could loop forever in
JavaScript as well); with fuel at least the number of positions ever
traversed, the result is the full pass. -/
def forEachFrom (env : Nat → ListenerAction) :
    Nat → List (Option Nat) → Nat → List Nat
  | 0, _, _ => []
  | fuel + 1, entries, i =>
    match entries.get? i with
    | none => []
    | some none => forEachFrom env fuel entries (i + 1)
    | some (some l) =>
      l :: forEachFrom env fuel (applyAction (env l) entries) (i + 1)

/-- The notify pass (useFliptClient.tsx lines 54-56): iterate the live
listener set from the start. -/
def notifyPass (env : Nat → ListenerAction) (fuel : Nat)
    (entries : List (Option Nat)) : List Nat :=
  forEachFrom env fuel entries 0

/-- What the pass would visit if it took a snapshot of the listener set
first and iterated the snapshot: every listener present at the start, in
order, regardless of mutations made during the pass. -/
def snapshotPass (entries : List (Option Nat)) : List Nat :=
  entries.filterMap id

/-- Response of the Evaluation Handle's evaluateBoolean. -/
structure BooleanEvaluationResponse where
  enabled : Bool
  deriving DecidableEq, Repr

/-- Outcome of an evaluateBoolean call: a response, or a thrown error. -/
inductive EvalOutcome where
  | ok (r : BooleanEvaluationResponse)
  | err
  deriving DecidableEq, Repr

/-- The selector passed by useFliptBoolean to useFliptSelector
(useFliptClient.tsx lines 224-237): if a client exists, not loading, and no
error, evaluate the flag and return its enabled field, returning the
fallback if evaluation throws; in every other case return the fallback.
The environment outcome of the evaluateBoolean call for this request is
passed explicitly; the try/catch makes the function total, so it never
propagates an exception. -/
def useFliptBooleanResult (client : Option EvalOutcome) (isLoading : Bool)
    (error : Option String) (fallback : Bool) : Bool :=
  match client, isLoading, error with
  | some outcome, false, none =>
    match outcome with
    | .ok r => r.enabled
    | .err => fallback
  | _, _, _ => fallback

/-- Outcome of constructing the Evaluation Handle (new FliptClient):
success (carrying the outcome of the initial getSnapshotHash read made on
line 129) or a thrown error value. -/
inductive ConstructOutcome where
  | ok (initialHash : HashOutcome)
  | err (e : String)
  deriving DecidableEq, Repr

/-- The initializeClient flow (useFliptClient.tsx lines 117-145), run with
isMounted true, as a transition on the store state; also returns the number
of notifications issued and whether setupPolling was invoked. On success:
store the client, clear isLoading, attempt the initial hash read (a failure
is swallowed), set up polling, notify once. On failure: set error, clear
isLoading, leave the handle empty, notify once; nothing else is scheduled
and construction is never re-run. -/
def initializeClient (updateInterval : Option Int) (s : StoreState)
    (outcome : ConstructOutcome) : StoreState × Nat × Bool :=
  match outcome with
  | .ok initialHash =>
    let s1 := { s with client := true, isLoading := false }
    let s2 :=
      match initialHash with
      | .ok h => { s1 with lastHash := some h }
      | .err => s1
    (setupPolling updateInterval s2, 1, true)
  | .err e =>
    ({ s with error := some e, isLoading := false }, 1, false)

/-- Concrete store state used as witness input: mounted, client present,
timer running, a last hash on record. -/
def exPollStore : StoreState :=
  { client := true, isLoading := false, error := none, mounted := true,
    intervalId := true, lastHash := some "h0" }

/-- Concrete store state used as witness input: mounted, no client yet,
no timer. -/
def exFreshStore : StoreState :=
  { client := false, isLoading := true, error := none, mounted := true,
    intervalId := false, lastHash := none }

/-- Concrete listener environment used in counterexamples and witnesses:
listener 1 unsubscribes listener 2, everyone else does nothing. -/
def exEnvRemove : Nat → ListenerAction :=
  fun l => if l = 1 then .remove 2 else .noop

end Flipt

namespace Flipt

/-- C3: when updateInterval is unset, the polling loop uses a fallback of 10
seconds (times 1000 to milliseconds) - not the documented external default
of 120 seconds - and every configuration whose computed interval is at most
0 leaves the store unchanged, so no polling timer is ever started. -/
theorem c3_interval_fallback_and_nonpositive_disables :
    pollIntervalMs none = 10 * 1000
    ∧ documentedUpdateIntervalDefault = 120
    ∧ pollIntervalMs none ≠ documentedUpdateIntervalDefault * 1000
    ∧ ∀ (u : Option Int) (s : StoreState),
        pollIntervalMs u ≤ 0 → setupPolling u s = s := by
  refine ⟨rfl, rfl, by decide, ?_⟩
  intro u s h
  unfold setupPolling
  rw [if_neg]
  intro hcon
  exact absurd hcon.1 (not_lt.mpr h)

/-- Witness for c3: with updateInterval 0 the computed interval is not
positive and setupPolling installs no timer on a mounted store with a
client. -/
theorem c3_witness :
    pollIntervalMs (some 0) ≤ 0
    ∧ setupPolling (some 0) exPollStore = exPollStore :=
  ⟨by decide,
   c3_interval_fallback_and_nonpositive_disables.2.2.2 (some 0) exPollStore
     (by decide)⟩

/-- C10: the FliptClient constructor maps updateInterval to the native
options with a JavaScript truthiness test, so an updateInterval of 0 is
replaced by 120 exactly as when the option is unset, while every nonzero
value passes through unchanged; and at the hook layer an updateInterval of
0 disables the poll timer (setupPolling leaves the store unchanged). -/
theorem c10_update_interval_truthiness :
    uniffiUpdateInterval (some 0) = 120
    ∧ uniffiUpdateInterval none = 120
    ∧ (∀ n : Int, n ≠ 0 → uniffiUpdateInterval (some n) = n)
    ∧ ∀ s : StoreState, setupPolling (some 0) s = s := by
  refine ⟨rfl, rfl, ?_, ?_⟩
  · intro n h
    simp [uniffiUpdateInterval, intTruthy, h]
  · intro s
    unfold setupPolling
    rw [if_neg]
    intro hcon
    exact absurd hcon.1 (by decide)

/-- Witness for c10: updateInterval 5 passes through to the native client
as 5, and updateInterval 0 installs no hook-layer timer. -/
theorem c10_witness :
    uniffiUpdateInterval (some 5) = 5
    ∧ setupPolling (some 0) exFreshStore = exFreshStore :=
  ⟨c10_update_interval_truthiness.2.2.1 5 (by decide),
   c10_update_interval_truthiness.2.2.2 exFreshStore⟩

/-- C7: useFliptBoolean returns the fallback whenever the client handle is
absent, isLoading is true, error is set, or evaluateBoolean throws; in the
remaining case (client present, not loading, no error, evaluation
succeeds) it returns the enabled field of the response; and it is total -
every input yields either the fallback or an enabled field, so no
exception reaches the caller. -/
theorem c7_useFliptBoolean_fallback (client : Option EvalOutcome)
    (isLoading : Bool) (error : Option String) (fallback : Bool) :
    ((client = none ∨ isLoading = true ∨ error ≠ none ∨ client = some .err) →
      useFliptBooleanResult client isLoading error fallback = fallback)
    ∧ (∀ r, client = some (.ok r) → isLoading = false → error = none →
      useFliptBooleanResult client isLoading error fallback = r.enabled)
    ∧ (useFliptBooleanResult client isLoading error fallback = fallback
      ∨ ∃ r, client = some (.ok r)
          ∧ useFliptBooleanResult client isLoading error fallback = r.enabled) := by
  match client, isLoading, error with
  | none, b, e =>
    refine ⟨fun _ => rfl, ?_, Or.inl rfl⟩
    intro r hr
    simp at hr
  | some o, true, e =>
    refine ⟨fun _ => rfl, ?_, Or.inl rfl⟩
    intro r _ hb
    simp at hb
  | some o, false, some m =>
    refine ⟨fun _ => rfl, ?_, Or.inl rfl⟩
    intro r _ _ he
    simp at he
  | some .err, false, none =>
    refine ⟨fun _ => rfl, ?_, Or.inl rfl⟩
    intro r hr
    simp at hr
  | some (.ok r0), false, none =>
    refine ⟨?_, ?_, Or.inr ⟨r0, rfl, rfl⟩⟩
    · rintro (h | h | h | h)
      · simp at h
      · simp at h
      · exact absurd rfl h
      · simp at h
    · intro r hr _ _
      rw [Option.some_inj] at hr
      cases hr
      rfl

/-- Witness for c7: with a present client whose evaluation returns
enabled true, useFliptBoolean returns true even though the fallback is
false; with an absent client it returns the fallback. -/
theorem c7_witness :
    useFliptBooleanResult (some (.ok ⟨true⟩)) false none false = true
    ∧ useFliptBooleanResult none false none false = false :=
  ⟨(c7_useFliptBoolean_fallback (some (.ok ⟨true⟩)) false none false).2.1
      ⟨true⟩ rfl rfl rfl,
   (c7_useFliptBoolean_fallback none false none false).1 (Or.inl rfl)⟩

/-- C8: when construction of the Evaluation Handle throws, the store ends
with error set to the thrown value, isLoading false, and the handle still
empty; exactly one notification is issued; setupPolling is not invoked and
the timer state is untouched, and the code contains no path that re-runs
construction for this store (the initialization effect runs once, and its
catch branch schedules nothing). -/
theorem c8_construction_failure (u : Option Int) (s : StoreState) (e : String)
    (hclient : s.client = false) :
    (initializeClient u s (.err e)).1.error = some e
    ∧ (initializeClient u s (.err e)).1.isLoading = false
    ∧ (initializeClient u s (.err e)).1.client = false
    ∧ (initializeClient u s (.err e)).1.intervalId = s.intervalId
    ∧ (initializeClient u s (.err e)).2.1 = 1
    ∧ (initializeClient u s (.err e)).2.2 = false :=
  ⟨rfl, rfl, hclient, rfl, rfl, rfl⟩

/-- Witness for c8: a concrete failed construction on a fresh store. -/
theorem c8_witness :
    (initializeClient none exFreshStore (.err "boom")).1.error = some "boom"
    ∧ (initializeClient none exFreshStore (.err "boom")).1.isLoading = false
    ∧ (initializeClient none exFreshStore (.err "boom")).1.client = false
    ∧ (initializeClient none exFreshStore (.err "boom")).1.intervalId
        = exFreshStore.intervalId
    ∧ (initializeClient none exFreshStore (.err "boom")).2.1 = 1
    ∧ (initializeClient none exFreshStore (.err "boom")).2.2 = false :=
  c8_construction_failure none exFreshStore "boom" rfl

/-- A poll tick never changes the client presence or the mounted flag. -/
lemma tickBody_preserves (s : StoreState) (e : TickEnv) :
    (tickBody s e).1.client = s.client ∧ (tickBody s e).1.mounted = s.mounted := by
  unfold tickBody
  split
  · rcases e with ⟨ref, hash⟩
    rcases ref with ⟨_ | _⟩ | _ <;> rcases hash with _ | _ <;> exact ⟨rfl, rfl⟩
  · exact ⟨rfl, rfl⟩

/-- Running a sequence of ticks never changes client presence or the
mounted flag. -/
lemma runTicks_preserves (envs : List TickEnv) :
    ∀ s : StoreState,
      (runTicks s envs).client = s.client ∧ (runTicks s envs).mounted = s.mounted := by
  induction envs with
  | nil => exact fun s => ⟨rfl, rfl⟩
  | cons e es ih =>
    intro s
    have h1 := tickBody_preserves s e
    have h2 := ih (tickBody s e).1
    exact ⟨h2.1.trans h1.1, h2.2.trans h1.2⟩

/-- Behaviour of a single tick while the client exists and the store is
mounted, by cases on the environment. -/
lemma tickBody_cases (s : StoreState) (e : TickEnv)
    (hc : s.client = true) (hm : s.mounted = true) :
    ((tickBody s e).2.notified = true ↔ e.refresh = .ok true)
    ∧ (∀ h, (tickBody s e).2.hashWritten = some h ↔
        (e.refresh = .ok true ∧ e.hash = .ok h))
    ∧ (∀ h, e.refresh = .ok true → e.hash = .ok h →
        (tickBody s e).1.lastHash = some h)
    ∧ (e.refresh = .err → (tickBody s e).1.lastHash = none)
    ∧ (s.lastHash ≠ none → (tickBody s e).1.lastHash = none → e.refresh = .err)
    ∧ (e.refresh = .ok true → e.hash = .err →
        (tickBody s e).1.lastHash = s.lastHash ∧ (tickBody s e).2.notified = true)
    ∧ ((e.refresh = .ok false ∨ e.refresh = .err) →
        (tickBody s e).2.notified = false) := by
  rcases e with ⟨ref, hash⟩
  rcases ref with ⟨_ | _⟩ | _ <;> rcases hash with hv | _ <;>
    simp [tickBody, hc, hm]

/-- C1: on every poll tick taken while a handle exists and the store is
attached, listeners are notified if and only if refresh returned true; when
refresh returns true but getSnapshotHash throws, listeners are still
notified and lastSnapshotHash is unchanged; when refresh returns false or
throws, no listener is notified. -/
theorem c1_tick_notify_iff_refresh_true (s : StoreState) (e : TickEnv)
    (hc : s.client = true) (hm : s.mounted = true) :
    ((tickBody s e).2.notified = true ↔ e.refresh = .ok true)
    ∧ (e.refresh = .ok true → e.hash = .err →
        (tickBody s e).2.notified = true
        ∧ (tickBody s e).1.lastHash = s.lastHash)
    ∧ ((e.refresh = .ok false ∨ e.refresh = .err) →
        (tickBody s e).2.notified = false) := by
  obtain ⟨h1, _, _, _, _, h6, h7⟩ := tickBody_cases s e hc hm
  exact ⟨h1, fun hr hh => ⟨(h6 hr hh).2, (h6 hr hh).1⟩, h7⟩

/-- Witness for c1: a concrete tick where refresh reports a change but the
hash read throws; the listeners are notified and the stored hash is kept. -/
theorem c1_witness :
    (tickBody exPollStore ⟨.ok true, .err⟩).2.notified = true
    ∧ (tickBody exPollStore ⟨.ok true, .err⟩).1.lastHash = exPollStore.lastHash :=
  (c1_tick_notify_iff_refresh_true exPollStore ⟨.ok true, .err⟩ rfl rfl).2.1
    rfl rfl

/-- C2: along every sequence of poll ticks from a state with an attached
store and a live handle, at each step the fresh hash is written to
lastSnapshotHash exactly when refresh returned true and the hash read
succeeded; lastSnapshotHash is cleared (from present to absent) exactly
when refresh threw; and a failed hash read after a detected change leaves
lastSnapshotHash at its previous value while the notification still goes
out. -/
theorem c2_lastHash_update_iff (s0 : StoreState) (envs : List TickEnv)
    (hc : s0.client = true) (hm : s0.mounted = true)
    (i : Nat) (hi : i < envs.length) (s : StoreState) (e : TickEnv)
    (hs : s = runTicks s0 (envs.take i)) (he : e = envs.get ⟨i, hi⟩) :
    (∀ h, (tickBody s e).2.hashWritten = some h ↔
        (e.refresh = .ok true ∧ e.hash = .ok h))
    ∧ (∀ h, e.refresh = .ok true → e.hash = .ok h →
        (tickBody s e).1.lastHash = some h)
    ∧ (e.refresh = .err → (tickBody s e).1.lastHash = none)
    ∧ (s.lastHash ≠ none → (tickBody s e).1.lastHash = none → e.refresh = .err)
    ∧ (e.refresh = .ok true → e.hash = .err →
        (tickBody s e).1.lastHash = s.lastHash
        ∧ (tickBody s e).2.notified = true) := by
  have hpres := runTicks_preserves (envs.take i) s0
  have hc' : s.client = true := by rw [hs, hpres.1, hc]
  have hm' : s.mounted = true := by rw [hs, hpres.2, hm]
  obtain ⟨_, h2, h3, h4, h5, h6, _⟩ := tickBody_cases s e hc' hm'
  exact ⟨h2, h3, h4, h5, h6⟩

/-- Witness for c2: a two-tick run in which the first tick stores the
freshly read hash and the second tick clears it because refresh threw. -/
theorem c2_witness :
    (tickBody (runTicks exPollStore
        ([⟨.ok true, .ok "h1"⟩, ⟨.err, .ok "h2"⟩].take 1))
      ([⟨.ok true, .ok "h1"⟩, ⟨.err, .ok "h2"⟩].get ⟨1, by decide⟩)).1.lastHash
      = none :=
  (c2_lastHash_update_iff exPollStore [⟨.ok true, .ok "h1"⟩, ⟨.err, .ok "h2"⟩]
    rfl rfl 1 (by decide) _ _ rfl rfl).2.2.1 rfl

/-- Elapsing intervals on a store with no installed timer changes nothing
and produces only empty traces. -/
lemma runElapse_no_timer (envs : List TickEnv) :
    ∀ s : StoreState, s.intervalId = false →
      runElapse s envs = (s, List.replicate envs.length TickTrace.none) := by
  induction envs with
  | nil => intro s _; rfl
  | cons e es ih =>
    intro s hs
    have helapse : elapse s e = (s, TickTrace.none) := by
      unfold elapse
      rw [if_neg]
      rw [hs]
      decide
    simp only [runElapse, helapse, ih s hs, List.replicate]

/-- C4: after detach, any number of elapsed timer intervals performs no
refresh call and no notification and leaves the state fixed; detach is
idempotent; detach cancels and releases the timer; and detach leaves the
handle fields (client, isLoading, error, lastSnapshotHash) exactly as
before. -/
theorem c4_detach_stops_polling (s : StoreState) (envs : List TickEnv) :
    (runElapse (detach s) envs).1 = detach s
    ∧ (∀ t ∈ (runElapse (detach s) envs).2,
        t.refreshCalled = false ∧ t.notified = false)
    ∧ detach (detach s) = detach s
    ∧ (detach s).client = s.client
    ∧ (detach s).isLoading = s.isLoading
    ∧ (detach s).error = s.error
    ∧ (detach s).lastHash = s.lastHash
    ∧ (detach s).intervalId = false := by
  have hrun := runElapse_no_timer envs (detach s) rfl
  refine ⟨by rw [hrun], ?_, rfl, rfl, rfl, rfl, rfl, rfl⟩
  intro t ht
  rw [hrun] at ht
  have := List.eq_of_mem_replicate ht
  subst this
  exact ⟨rfl, rfl⟩

/-- Witness for c4: after detaching a store with a running timer, three
elapsed intervals leave the state fixed and the trace of the first elapsed
interval is empty. -/
theorem c4_witness :
    (runElapse (detach exPollStore)
        [⟨.ok true, .ok "a"⟩, ⟨.err, .err⟩, ⟨.ok false, .err⟩]).1
      = detach exPollStore
    ∧ (TickTrace.none.refreshCalled = false ∧ TickTrace.none.notified = false) :=
  ⟨(c4_detach_stops_polling exPollStore
      [⟨.ok true, .ok "a"⟩, ⟨.err, .err⟩, ⟨.ok false, .err⟩]).1,
   (c4_detach_stops_polling exPollStore
      [⟨.ok true, .ok "a"⟩, ⟨.err, .err⟩, ⟨.ok false, .err⟩]).2.1
     TickTrace.none (by decide)⟩

/-- Counterexample to C9 as stated: with both token kinds present -
client_token the empty string and jwt_token "jwt" - the constructor
selects the JWT, not the client token, because the JavaScript truthiness
test on line 84 of wrapper.ts treats the empty string as absent. -/
theorem c9_counterexample :
    selectAuthentication (some ⟨some "", some "jwt"⟩)
      = some (.jwtToken "jwt")
    ∧ selectAuthentication (some ⟨some "", some "jwt"⟩)
      ≠ some (.clientToken "") := by
  constructor
  · rfl
  · intro h
    simp [selectAuthentication, strTruthy] at h

/-- C9 amended: presence of a token kind means provided and non-empty
(JavaScript-truthy). When the client token is present and non-empty it is
selected regardless of the JWT; when only the JWT is present and non-empty
it is selected; when neither token is non-empty, or no authentication
record is given, no authentication value is passed to the underlying
client. -/
theorem c9_auth_precedence (o : AuthOptions) :
    (strTruthy o.client_token = true →
      selectAuthentication (some o)
        = some (.clientToken (o.client_token.getD "")))
    ∧ (strTruthy o.client_token = false → strTruthy o.jwt_token = true →
      selectAuthentication (some o)
        = some (.jwtToken (o.jwt_token.getD "")))
    ∧ (strTruthy o.client_token = false → strTruthy o.jwt_token = false →
      selectAuthentication (some o) = none)
    ∧ selectAuthentication none = none := by
  refine ⟨?_, ?_, ?_, rfl⟩
  · intro hct
    simp [selectAuthentication, hct]
  · intro hct hjwt
    simp [selectAuthentication, hct, hjwt]
  · intro hct hjwt
    simp [selectAuthentication, hct, hjwt]

/-- Witness for the amended c9: with both tokens present and non-empty the
client token wins; with only a non-empty JWT the JWT is used. -/
theorem c9_witness :
    selectAuthentication (some ⟨some "ct", some "jwt"⟩)
      = some (.clientToken "ct")
    ∧ selectAuthentication (some ⟨none, some "jwt"⟩)
      = some (.jwtToken "jwt") :=
  ⟨(c9_auth_precedence ⟨some "ct", some "jwt"⟩).1 (by decide),
   (c9_auth_precedence ⟨none, some "jwt"⟩).2.1 rfl (by decide)⟩

/-- Counterexample to C5 as stated: the notify pass iterates the live
listener set, not a snapshot. With listeners 1 and 2 registered and
listener 1 unsubscribing listener 2 during the pass, the pass visits only
listener 1, while a snapshot-then-iterate pass would visit both. -/
theorem c5_counterexample :
    notifyPass exEnvRemove 5 [some 1, some 2] = [1]
    ∧ snapshotPass [some 1, some 2] = [1, 2]
    ∧ notifyPass exEnvRemove 5 [some 1, some 2]
      ≠ snapshotPass [some 1, some 2] := by
  refine ⟨rfl, rfl, ?_⟩
  decide

/-- Notify pass with only non-mutating listeners, from any start index:
it visits exactly the remaining entries in order. -/
lemma forEachFrom_noop (env : Nat → ListenerAction)
    (hnoop : ∀ l, env l = .noop) :
    ∀ (fuel : Nat) (entries : List (Option Nat)) (i : Nat),
      entries.length ≤ i + fuel →
      forEachFrom env fuel entries i = (entries.drop i).filterMap id := by
  intro fuel
  induction fuel with
  | zero =>
    intro entries i hlen
    rw [List.drop_eq_nil_of_le (by omega)]
    rfl
  | succ fuel ih =>
    intro entries i hlen
    unfold forEachFrom
    cases hget : entries.get? i with
    | none =>
      rw [List.get?_eq_none] at hget
      rw [List.drop_eq_nil_of_le hget]
      rfl
    | some o =>
      have hlt : i < entries.length := by
        by_contra hge
        rw [List.get?_eq_none.mpr (by omega)] at hget
        cases hget
      have hdrop : entries.drop i = entries.get ⟨i, hlt⟩ :: entries.drop (i + 1) :=
        List.drop_eq_get_cons hlt
      have hgetv : entries.get ⟨i, hlt⟩ = o := by
        have := List.get?_eq_get hlt
        rw [hget] at this
        exact (Option.some_inj.mp this).symm
      cases o with
      | none =>
        show forEachFrom env fuel entries (i + 1)
          = List.filterMap id (List.drop i entries)
        rw [ih entries (i + 1) (by omega), hdrop, hgetv]
        rfl
      | some l =>
        show l :: forEachFrom env fuel (applyAction (env l) entries) (i + 1)
          = List.filterMap id (List.drop i entries)
        rw [hnoop l]
        show l :: forEachFrom env fuel entries (i + 1)
          = List.filterMap id (List.drop i entries)
        rw [ih entries (i + 1) (by omega), hdrop, hgetv]
        rfl

/-- C5 amended: notification iterates the live listener set (the Set
forEach semantics), so mutations made by listeners during the pass can
change which listeners it visits - a listener deleted before being visited
is skipped; only when no listener mutates the set does the pass visit
exactly the listeners present at the start, in order. -/
theorem c5_live_iteration (env : Nat → ListenerAction)
    (entries : List (Option Nat)) (fuel : Nat)
    (hnoop : ∀ l, env l = .noop) (hfuel : entries.length ≤ fuel) :
    notifyPass env fuel entries = snapshotPass entries := by
  unfold notifyPass snapshotPass
  have := forEachFrom_noop env hnoop fuel entries 0 (by omega)
  rw [this]
  rfl

/-- Witness for the amended c5: with two listeners and no mutation the
pass visits both in order. -/
theorem c5_witness :
    notifyPass (fun _ => ListenerAction.noop) 2 [some 1, some 2]
      = snapshotPass [some 1, some 2] :=
  c5_live_iteration (fun _ => ListenerAction.noop) [some 1, some 2] 2
    (fun _ => rfl) (by decide)

/-- Applying any action other than re-adding x preserves absence of x from
the entry list. -/
lemma applyAction_not_mem (a : ListenerAction) (x : Nat)
    (entries : List (Option Nat)) (ha : a ≠ .add x)
    (h : some x ∉ entries) : some x ∉ applyAction a entries := by
  cases a with
  | noop => exact h
  | remove y =>
    intro hmem
    rw [applyAction, List.mem_map] at hmem
    obtain ⟨e, hin, heq⟩ := hmem
    by_cases hy : e = some y
    · rw [if_pos hy] at heq
      cases heq
    · rw [if_neg hy] at heq
      exact h (heq ▸ hin)
  | add y =>
    have hyx : y ≠ x := fun hxy => ha (hxy ▸ rfl)
    rw [applyAction]
    split
    · exact h
    · intro hmem
      rcases List.mem_append.mp hmem with hmem | hmem
      · exact h hmem
      · rcases List.mem_singleton.mp hmem with heq
        exact hyx (Option.some_inj.mp heq.symm)

/-- Deleting x clears every entry holding x. -/
lemma applyAction_remove_not_mem (x : Nat) (entries : List (Option Nat)) :
    some x ∉ applyAction (.remove x) entries := by
  intro hmem
  rw [applyAction, List.mem_map] at hmem
  obtain ⟨e, _, heq⟩ := hmem
  by_cases hy : e = some x
  · rw [if_pos hy] at heq
    cases heq
  · rw [if_neg hy] at heq
    exact hy heq

/-- A listener absent from the live entry list is never visited by the
rest of the pass, provided no listener re-adds it. -/
lemma forEachFrom_not_mem (env : Nat → ListenerAction) (x : Nat)
    (hnoadd : ∀ l, env l ≠ .add x) :
    ∀ (fuel : Nat) (entries : List (Option Nat)) (i : Nat),
      some x ∉ entries → x ∉ forEachFrom env fuel entries i := by
  intro fuel
  induction fuel with
  | zero =>
    intro entries i _
    simp [forEachFrom]
  | succ fuel ih =>
    intro entries i habs
    unfold forEachFrom
    cases hget : entries.get? i with
    | none => simp
    | some o =>
      cases o with
      | none => exact ih entries (i + 1) habs
      | some l =>
        have hlmem : some l ∈ entries := List.get?_mem hget
        have hlx : l ≠ x := fun hlx => habs (hlx ▸ hlmem)
        show x ∉ l :: forEachFrom env fuel (applyAction (env l) entries) (i + 1)
        intro hmem
        rcases List.mem_cons.mp hmem with heq | hmem
        · exact hlx heq.symm
        · exact ih (applyAction (env l) entries) (i + 1)
            (applyAction_not_mem (env l) x entries (hnoadd l) habs) hmem

/-- Once the pass visits the listener a whose action unsubscribes x, x is
not visited in the remainder of the pass (no listener re-adds x). -/
lemma forEachFrom_after_remove (env : Nat → ListenerAction) (a x : Nat)
    (ha : env a = .remove x) (hnoadd : ∀ l, env l ≠ .add x) :
    ∀ (fuel : Nat) (entries : List (Option Nat)) (i : Nat)
      (pre post : List Nat),
      forEachFrom env fuel entries i = pre ++ a :: post → x ∉ post := by
  intro fuel
  induction fuel with
  | zero =>
    intro entries i pre post hsplit
    rw [forEachFrom] at hsplit
    exact absurd hsplit.symm (List.append_ne_nil_of_right_ne_nil pre (by simp))
  | succ fuel ih =>
    intro entries i pre post hsplit
    rw [forEachFrom] at hsplit
    revert hsplit
    cases hget : entries.get? i with
    | none =>
      intro hsplit
      exact absurd hsplit.symm
        (List.append_ne_nil_of_right_ne_nil pre (by simp))
    | some o =>
      cases o with
      | none =>
        intro hsplit
        exact ih entries (i + 1) pre post hsplit
      | some l =>
        intro hsplit
        cases pre with
        | nil =>
          rw [List.nil_append] at hsplit
          have hla : l = a := (List.cons_eq_cons.mp hsplit).1
          have hpost : forEachFrom env fuel (applyAction (env l) entries) (i + 1)
              = post := (List.cons_eq_cons.mp hsplit).2
          rw [← hpost]
          apply forEachFrom_not_mem env x hnoadd
          rw [hla, ha]
          exact applyAction_remove_not_mem x entries
        | cons p pre2 =>
          rw [List.cons_append] at hsplit
          have hrest : forEachFrom env fuel (applyAction (env l) entries) (i + 1)
              = pre2 ++ a :: post := (List.cons_eq_cons.mp hsplit).2
          exact ih (applyAction (env l) entries) (i + 1) pre2 post hrest

/-- C6: once a listener's unsubscribe function has run, it receives no
further notifications. If listener a unsubscribes x (and no listener
re-subscribes x), then in any notify pass x is never visited after a; and
once x is out of the listener set, later passes never visit x at all. -/
theorem c6_unsubscribed_not_notified (env : Nat → ListenerAction) (a x : Nat)
    (ha : env a = .remove x) (hnoadd : ∀ l, env l ≠ .add x) :
    (∀ (fuel : Nat) (entries : List (Option Nat)) (pre post : List Nat),
      notifyPass env fuel entries = pre ++ a :: post → x ∉ post)
    ∧ (∀ (fuel : Nat) (entries : List (Option Nat)),
      some x ∉ entries → x ∉ notifyPass env fuel entries) :=
  ⟨fun fuel entries pre post hsplit =>
    forEachFrom_after_remove env a x ha hnoadd fuel entries 0 pre post hsplit,
   fun fuel entries habs =>
    forEachFrom_not_mem env x hnoadd fuel entries 0 habs⟩

/-- Witness for c6: listener 1 unsubscribes listener 2 during the pass
over the set holding 1 and 2; the pass is [1] and 2 is not visited after
1. -/
theorem c6_witness :
    (2 : Nat) ∉ ([] : List Nat)
    ∧ (2 : Nat) ∉ notifyPass exEnvRemove 5 [some 1, none] :=
  ⟨(c6_unsubscribed_not_notified exEnvRemove 1 2 rfl
      (fun l => by by_cases h : l = 1 <;> simp [exEnvRemove, h])).1
    5 [some 1, some 2] [] [] (by decide),
   (c6_unsubscribed_not_notified exEnvRemove 1 2 rfl
      (fun l => by by_cases h : l = 1 <;> simp [exEnvRemove, h])).2
    5 [some 1, none] (by decide)⟩

end Flipt
